import Mathlib

/-!
Verification of the LlamaSweep quote/settlement engine against its
natural-language specification.  The definitions below are shallow
embeddings of the TypeScript solver (`solver/src`) and the Solidity
settlement contract (`contracts/src/SolverVault.sol`):

* machine integers (`uint256`, JS `bigint`) are modelled as `Nat`/`Int`
  with explicit overflow/underflow checks where Solidity 0.8 would revert;
* JS numbers used for USD amounts are modelled as exact rationals `ℚ`;
* network effects (RPC calls, price fetches, transaction submission) are
  modelled as oracle parameters, so each operation is a pure function of
  its inputs and the oracle outcomes;
* fallible code returns `Except`.
-/

namespace LlamaSweep

/-! ## SolverVault.sol -/

/-- Addresses are modelled as natural numbers; `0` is `address(0)`. -/
abbrev Addr := Nat

/-- `uint256` modulus; Solidity 0.8 reverts on overflow past it. -/
def UINT256_MOD : ℕ := 2 ^ 256

/-- `MAX_FEE_BPS` constant of `SolverVault.sol` (maximum fee: 20%). -/
def MAX_FEE_BPS : ℕ := 2000

/-- `BPS_DENOMINATOR` constant of `SolverVault.sol`. -/
def BPS_DENOMINATOR : ℕ := 10000

/-- The vault state variables relevant to settlement
(`SolverVault.sol`).  The two `mapping(address => uint256)` fields are
total maps defaulting to zero. -/
structure VaultState where
  owner : Addr
  feeBps : ℕ
  defiLlamaTreasury : Addr
  accumulatedFees : Addr → ℕ
  totalDonations : Addr → ℕ
  nativeBalance : ℕ

/-- Revert reasons of `SolverVault.sol`.  `overflow` stands for the
implicit checked-arithmetic revert of Solidity 0.8. -/
inductive VaultError
  | unauthorized
  | feeTooHigh
  | zeroAddress
  | zeroAmount
  | transferFailed
  | insufficientBalance
  | invalidRecipient
  | overflow
deriving DecidableEq

/-- Checked `uint256` multiplication (Solidity 0.8 semantics). -/
def checkedMul (a b : ℕ) : Except VaultError ℕ :=
  if a * b < UINT256_MOD then .ok (a * b) else .error .overflow

/-- Checked `uint256` addition (Solidity 0.8 semantics). -/
def checkedAdd (a b : ℕ) : Except VaultError ℕ :=
  if a + b < UINT256_MOD then .ok (a + b) else .error .overflow

/-- Checked `uint256` subtraction (Solidity 0.8 semantics). -/
def checkedSub (a b : ℕ) : Except VaultError ℕ :=
  if b ≤ a then .ok (a - b) else .error .overflow

/-- Result of a successful settlement call: the updated vault state,
the recipient of the transfer, and the amounts of the
`SettlementSent(recipient, token, gross, fee, net)` event. -/
structure SettlementOutcome where
  state : VaultState
  recipient : Addr
  grossAmount : ℕ
  feeAmount : ℕ
  netAmount : ℕ

/-- `SolverVault.settle(user, token, amount, isDonation)`
(`SolverVault.sol`, same-chain ERC20 settlement).  The final
`_safeTransfer(token, recipient, userAmount)` is recorded in the
outcome's `recipient`/`netAmount` fields. -/
def settle (s : VaultState) (user token amount : Addr) (isDonation : Bool) :
    Except VaultError SettlementOutcome :=
  if user = 0 then .error .invalidRecipient
  else if token = 0 then .error .zeroAddress
  else if amount = 0 then .error .zeroAmount
  else do
    let feeAmount ←
      if isDonation then pure 0
      else do
        let p ← checkedMul amount s.feeBps
        pure (p / BPS_DENOMINATOR)
    let userAmount ← checkedSub amount feeAmount
    let s1 ←
      if 0 < feeAmount then do
        let v ← checkedAdd (s.accumulatedFees token) feeAmount
        pure { s with accumulatedFees :=
          fun t => if t = token then v else s.accumulatedFees t }
      else pure s
    let recipient := if isDonation then s.defiLlamaTreasury else user
    let s2 ←
      if isDonation then do
        let v ← checkedAdd (s1.totalDonations token) amount
        pure { s1 with totalDonations :=
          fun t => if t = token then v else s1.totalDonations t }
      else pure s1
    .ok { state := s2, recipient := recipient, grossAmount := amount,
          feeAmount := feeAmount, netAmount := userAmount }

/-- `SolverVault.settleNative(user, amount, isDonation)`
(`SolverVault.sol`).  The native token is tracked under `address(0)`;
the low-level value transfer of `userAmount` is reflected in the
vault's native balance. -/
def settleNative (s : VaultState) (user amount : ℕ) (isDonation : Bool) :
    Except VaultError SettlementOutcome :=
  if user = 0 then .error .invalidRecipient
  else if amount = 0 then .error .zeroAmount
  else if s.nativeBalance < amount then .error .insufficientBalance
  else do
    let feeAmount ←
      if isDonation then pure 0
      else do
        let p ← checkedMul amount s.feeBps
        pure (p / BPS_DENOMINATOR)
    let userAmount ← checkedSub amount feeAmount
    let s1 ←
      if 0 < feeAmount then do
        let v ← checkedAdd (s.accumulatedFees 0) feeAmount
        pure { s with accumulatedFees :=
          fun t => if t = 0 then v else s.accumulatedFees t }
      else pure s
    let recipient := if isDonation then s.defiLlamaTreasury else user
    let s2 ←
      if isDonation then do
        let v ← checkedAdd (s1.totalDonations 0) amount
        pure { s1 with totalDonations :=
          fun t => if t = 0 then v else s1.totalDonations t }
      else pure s1
    .ok { state := { s2 with nativeBalance := s2.nativeBalance - userAmount },
          recipient := recipient, grossAmount := amount,
          feeAmount := feeAmount, netAmount := userAmount }

/-- `SolverVault.calculateFee(grossAmount, isDonation)`
(`SolverVault.sol`).  The Solidity signature is
`returns (uint256 netAmount, uint256 feeAmount)`: the first component
of the returned pair is the net amount, the second the fee. -/
def calculateFee (s : VaultState) (grossAmount : ℕ) (isDonation : Bool) :
    Except VaultError (ℕ × ℕ) := do
  let feeAmount ←
    if isDonation then pure 0
    else do
      let p ← checkedMul grossAmount s.feeBps
      pure (p / BPS_DENOMINATOR)
  let netAmount ← checkedSub grossAmount feeAmount
  .ok (netAmount, feeAmount)

/-- A concrete vault state with the default 1000 bps (10%) fee, used by
the concrete witnesses below. -/
def vault0 : VaultState :=
  { owner := 1, feeBps := 1000, defiLlamaTreasury := 9,
    accumulatedFees := fun _ => 0, totalDonations := fun _ => 0,
    nativeBalance := 1000 }

set_option maxHeartbeats 1000000 in
/-- Claim C1: for every settlement computation (`settle`, `settleNative`,
`calculateFee`) with gross amount `g` and fee rate `feeBps`: when
`isDonation` is false, `feeAmount = ⌊g * feeBps / 10000⌋`; when
`isDonation` is true, `feeAmount = 0`; `netAmount = g - feeAmount`, so
`feeAmount + netAmount = g` exactly; and on donations the transfer
recipient is the configured DefiLlama treasury instead of the passed-in
user, with `g` added to the per-token donations total and the
accumulated fees left unchanged. -/
theorem C1_settlement_fee_invariants :
    (∀ s user token amount d r, settle s user token amount d = .ok r →
      (d = false → r.feeAmount = amount * s.feeBps / BPS_DENOMINATOR) ∧
      (d = true → r.feeAmount = 0) ∧
      r.netAmount = amount - r.feeAmount ∧
      r.feeAmount + r.netAmount = amount ∧
      (d = true → r.recipient = s.defiLlamaTreasury ∧
        r.state.totalDonations token = s.totalDonations token + amount ∧
        r.state.accumulatedFees token = s.accumulatedFees token) ∧
      (d = false → r.recipient = user)) ∧
    (∀ s user amount d r, settleNative s user amount d = .ok r →
      (d = false → r.feeAmount = amount * s.feeBps / BPS_DENOMINATOR) ∧
      (d = true → r.feeAmount = 0) ∧
      r.netAmount = amount - r.feeAmount ∧
      r.feeAmount + r.netAmount = amount ∧
      (d = true → r.recipient = s.defiLlamaTreasury ∧
        r.state.totalDonations 0 = s.totalDonations 0 + amount ∧
        r.state.accumulatedFees 0 = s.accumulatedFees 0) ∧
      (d = false → r.recipient = user)) ∧
    (∀ s g d net fee, calculateFee s g d = .ok (net, fee) →
      (d = false → fee = g * s.feeBps / BPS_DENOMINATOR) ∧
      (d = true → fee = 0) ∧
      net = g - fee ∧ fee + net = g) := by
  refine ⟨?_, ?_, ?_⟩
  · intro s user token amount d r h
    cases d <;>
      simp only [settle, checkedMul, checkedAdd, checkedSub] at h <;>
      (repeat' (first
        | (split_ifs at h)
        | (simp only [bind, Except.bind, pure, Except.pure] at h))) <;>
      (try (injection h with h)) <;>
      (try contradiction) <;>
      (subst h; refine ⟨?_, ?_, ?_, ?_, ?_, ?_⟩ <;>
        first
          | rfl
          | omega
          | (intro hh; simp_all)
          | simp_all)
  · intro s user amount d r h
    cases d <;>
      simp only [settleNative, checkedMul, checkedAdd, checkedSub] at h <;>
      (repeat' (first
        | (split_ifs at h)
        | (simp only [bind, Except.bind, pure, Except.pure] at h))) <;>
      (try (injection h with h)) <;>
      (try contradiction) <;>
      (subst h; refine ⟨?_, ?_, ?_, ?_, ?_, ?_⟩ <;>
        first
          | rfl
          | omega
          | (intro hh; simp_all)
          | simp_all)
  · intro s g d net fee h
    cases d <;>
      simp only [calculateFee, checkedMul, checkedSub] at h <;>
      (repeat' (first
        | (split_ifs at h)
        | (simp only [bind, Except.bind, pure, Except.pure] at h))) <;>
      (try (injection h with h)) <;>
      (try contradiction) <;>
      (simp only [Prod.mk.injEq] at h) <;>
      (obtain ⟨h1, h2⟩ := h; subst h1; subst h2;
        refine ⟨?_, ?_, ?_, ?_⟩ <;>
        first
          | rfl
          | omega
          | (intro hh; simp_all)
          | simp_all)

/-- The outcome of `settle vault0 5 7 100 false` (10% fee on 100). -/
def settleOutcome0 : SettlementOutcome :=
  { state := { vault0 with accumulatedFees :=
      fun t => if t = 7 then 10 else vault0.accumulatedFees t },
    recipient := 5, grossAmount := 100, feeAmount := 10, netAmount := 90 }

/-- The outcome of `settleNative vault0 5 100 true` (donation). -/
def settleNativeOutcome0 : SettlementOutcome :=
  { state := { vault0 with
      totalDonations := fun t => if t = 0 then 100 else vault0.totalDonations t,
      nativeBalance := 900 },
    recipient := 9, grossAmount := 100, feeAmount := 0, netAmount := 100 }

/-- Witness for C1: concrete settlements through the vault with the
default 10% fee. -/
theorem C1_settlement_fee_invariants_witness :
    settleOutcome0.feeAmount = 10 ∧
    settleOutcome0.feeAmount + settleOutcome0.netAmount = 100 ∧
    settleNativeOutcome0.feeAmount = 0 ∧
    settleNativeOutcome0.recipient = vault0.defiLlamaTreasury ∧
    settleNativeOutcome0.state.totalDonations 0 = vault0.totalDonations 0 + 100 ∧
    10 + 90 = (100 : ℕ) :=
  ⟨(C1_settlement_fee_invariants.1 vault0 5 7 100 false settleOutcome0 rfl).1 rfl,
   (C1_settlement_fee_invariants.1 vault0 5 7 100 false settleOutcome0 rfl).2.2.2.1,
   (C1_settlement_fee_invariants.2.1 vault0 5 100 true settleNativeOutcome0 rfl).2.1 rfl,
   ((C1_settlement_fee_invariants.2.1 vault0 5 100 true settleNativeOutcome0 rfl).2.2.2.2.1 rfl).1,
   ((C1_settlement_fee_invariants.2.1 vault0 5 100 true settleNativeOutcome0 rfl).2.2.2.2.1 rfl).2.1,
   (C1_settlement_fee_invariants.2.2 vault0 100 false 90 10 rfl).2.2.2⟩

/-- Claim C5 counterexample: with the default 1000 bps fee,
`calculateFee(100, false)` returns the pair `(90, 10)` — the NET amount
is the first component and the fee is the second — so the claimed
`(fee, net) = (10, 90)` return order is false on the code. -/
theorem C5_counterexample :
    calculateFee vault0 100 false = Except.ok (90, 10) ∧
    calculateFee vault0 100 false ≠ Except.ok (10, 90) := by
  refine ⟨rfl, fun h => ?_⟩
  have h' : ((90, 10) : ℕ × ℕ) = (10, 90) := by
    have h0 : (Except.ok (90, 10) : Except VaultError (ℕ × ℕ)) = Except.ok (10, 90) := by
      rw [← h]; rfl
    exact Except.ok.inj h0
  simp at h'

/-- Claim C5 (amended): the vault's `calculateFee(amount, isDonation)`
view returns the pair `(netAmount, feeAmount)` in that order — net
first, fee second — computed with the same basis-points formula as
settlement; for `feeBps = 1000`, `calculateFee(100, false)` returns
`(90, 10)` (fee 10, net 90) and `calculateFee(100, true)` returns
`(100, 0)` (fee 0, net 100). -/
theorem C5_calculateFee_net_first :
    (∀ s g d net fee, calculateFee s g d = .ok (net, fee) →
      fee = (if d then 0 else g * s.feeBps / BPS_DENOMINATOR) ∧
      net = g - fee ∧ fee + net = g) ∧
    (∀ s, s.feeBps = 1000 →
      calculateFee s 100 false = .ok (90, 10) ∧
      calculateFee s 100 true = .ok (100, 0)) := by
  constructor
  · intro s g d net fee h
    cases d <;>
      simp only [calculateFee, checkedMul, checkedSub] at h <;>
      (repeat' (first
        | (split_ifs at h)
        | (simp only [bind, Except.bind, pure, Except.pure] at h))) <;>
      (try (injection h with h)) <;>
      (try contradiction) <;>
      (simp only [Prod.mk.injEq] at h) <;>
      (obtain ⟨h1, h2⟩ := h; subst h1; subst h2;
        refine ⟨?_, ?_, ?_⟩ <;>
        first
          | rfl
          | omega
          | simp_all)
  · intro s hs
    constructor <;>
      simp only [calculateFee, checkedMul, checkedSub, hs, bind, Except.bind,
        pure, Except.pure, UINT256_MOD, BPS_DENOMINATOR] <;>
      norm_num

/-- Witness for C5 (amended): `calculateFee` evaluated at 100 with the
default 10% fee, donation and not. -/
theorem C5_calculateFee_net_first_witness :
    calculateFee vault0 100 false = Except.ok (90, 10) ∧
    calculateFee vault0 100 true = Except.ok (100, 0) ∧
    (10 : ℕ) = (if false then 0 else 100 * vault0.feeBps / BPS_DENOMINATOR) :=
  ⟨(C5_calculateFee_net_first.2 vault0 rfl).1,
   (C5_calculateFee_net_first.2 vault0 rfl).2,
   (C5_calculateFee_net_first.1 vault0 100 false 90 10 rfl).1⟩

/-! ## Solver data model (`solver/src/types.ts`)

Token addresses are modelled as strings (`0x…`), chain ids as `ℕ`,
`bigint` raw balances as `ℤ`, and JS numbers holding USD values as
exact rationals `ℚ`. -/

/-- `TokenBalance` (`types.ts`): a token balance with USD valuation. -/
structure TokenBalance where
  chainId : ℕ
  address : String
  symbol : String
  name : String
  decimals : ℕ
  balance : ℤ
  balanceFormatted : String
  priceUsd : ℚ
  valueUsd : ℚ
deriving DecidableEq

/-- `DustSummary` (`types.ts`): aggregated dust across chains. -/
structure DustSummary where
  totalValueUsd : ℚ
  tokenCount : ℕ
  chainCount : ℕ
  balances : List TokenBalance
  timestamp : ℕ
deriving DecidableEq

/-- The fields of `ChainConfig` (`solver/src/config/chains.ts`) the
claims depend on.  `delegateAddress` and `vaultAddress` are optional in
the source; the remaining fields (RPC URL, wrapped native, stablecoin
list, per-chain dust threshold) play no role in any claim and are
omitted. -/
structure ChainConfig where
  delegateAddress : Option String
  vaultAddress : Option String
deriving DecidableEq

/-- `getChainConfig` is a lookup in the static `SUPPORTED_CHAINS`
record; the registry is abstracted as a partial map from chain id to
`ChainConfig`. -/
abbrev ChainRegistry := ℕ → Option ChainConfig

/-- The subset of the operator `config` object
(`solver/src/config/index.ts`) the embedded operations read. -/
structure SolverConfig where
  defaultFeeBps : ℕ
  minDustValueUsd : ℚ
  maxDustValueUsd : ℚ
  defiLlamaTreasury : Option String
  sweepDeadlineSeconds : ℕ
  quoteExpirySeconds : ℕ
deriving DecidableEq

/-- The options argument of `scanAllBalances`
(`solver/src/services/balanceScanner.ts`). -/
structure ScanOptions where
  minValueUsd : Option ℚ
  maxValueUsd : Option ℚ
  includeChains : Option (List ℕ)
  excludeChains : Option (List ℕ)
deriving DecidableEq

/-! ## balanceScanner.ts -/

/-- Descending comparison on `valueUsd`, the comparator
`(a, b) => b.valueUsd - a.valueUsd` of `scanAllBalances`. -/
def valueGe (a b : TokenBalance) : Prop := b.valueUsd ≤ a.valueUsd

instance : DecidableRel valueGe := fun a b =>
  inferInstanceAs (Decidable (b.valueUsd ≤ a.valueUsd))

instance : IsTotal TokenBalance valueGe :=
  ⟨fun a b => le_total b.valueUsd a.valueUsd⟩

instance : IsTrans TokenBalance valueGe :=
  ⟨fun _ _ _ h1 h2 => le_trans h2 h1⟩

/-- The `for (const result of chainResults) if fulfilled push` loop of
`scanAllBalances`: fulfilled per-chain results are concatenated in
order, rejected ones are skipped. -/
def collectFulfilled (results : List (Option (List TokenBalance))) : List TokenBalance :=
  results.foldr (fun r acc => match r with | some bs => bs ++ acc | none => acc) []

/-- `scanAllBalances(userAddress, options)`
(`solver/src/services/balanceScanner.ts`).  The per-chain
`scanChainBalances` network calls are abstracted as the oracle
`scanChain : ℕ → Option (List TokenBalance)`, where `none` models a
rejected promise (RPC or price-fetch failure) and `some bs` a fulfilled
scan; the user address is baked into the oracle.  `now` models
`Date.now()`. -/
def scanAllBalances (cfg : SolverConfig) (supportedChainIds : List ℕ)
    (scanChain : ℕ → Option (List TokenBalance))
    (options : ScanOptions) (now : ℕ) : DustSummary :=
  let minValue := options.minValueUsd.getD cfg.minDustValueUsd
  let maxValue := options.maxValueUsd.getD cfg.maxDustValueUsd
  let chainIds := match options.includeChains with
    | some l => if l ≠ [] then supportedChainIds.filter (fun id => id ∈ l)
                else supportedChainIds
    | none => supportedChainIds
  let chainIds := match options.excludeChains with
    | some l => if l ≠ [] then chainIds.filter (fun id => id ∉ l) else chainIds
    | none => chainIds
  let allBalances := collectFulfilled (chainIds.map scanChain)
  let dustBalances := allBalances.filter
    (fun b => decide (minValue ≤ b.valueUsd ∧ b.valueUsd ≤ maxValue))
  let sorted := dustBalances.insertionSort valueGe
  { totalValueUsd := (sorted.map (·.valueUsd)).sum
    tokenCount := sorted.length
    chainCount := (sorted.map (·.chainId)).dedup.length
    balances := sorted
    timestamp := now }

/-- Claim C8: every `DustSummary` returned by `scanAllBalances` with
effective bounds `[minValueUsd, maxValueUsd]` contains only balances
inside the bounds, sorted descending by `valueUsd`; `totalValueUsd` is
the sum of the included `valueUsd`s, `tokenCount` their number, and
`chainCount` the number of distinct chain ids among them. -/
theorem C8_dust_summary_invariants
    (cfg : SolverConfig) (supportedChainIds : List ℕ)
    (scanChain : ℕ → Option (List TokenBalance))
    (options : ScanOptions) (now : ℕ) :
    (∀ b ∈ (scanAllBalances cfg supportedChainIds scanChain options now).balances,
      options.minValueUsd.getD cfg.minDustValueUsd ≤ b.valueUsd ∧
      b.valueUsd ≤ options.maxValueUsd.getD cfg.maxDustValueUsd) ∧
    (scanAllBalances cfg supportedChainIds scanChain options now).balances.Sorted valueGe ∧
    (scanAllBalances cfg supportedChainIds scanChain options now).totalValueUsd =
      ((scanAllBalances cfg supportedChainIds scanChain options now).balances.map
        (·.valueUsd)).sum ∧
    (scanAllBalances cfg supportedChainIds scanChain options now).tokenCount =
      (scanAllBalances cfg supportedChainIds scanChain options now).balances.length ∧
    (scanAllBalances cfg supportedChainIds scanChain options now).chainCount =
      ((scanAllBalances cfg supportedChainIds scanChain options now).balances.map
        (·.chainId)).dedup.length := by
  refine ⟨?_, ?_, rfl, rfl, rfl⟩
  · intro b hb
    simp only [scanAllBalances, List.mem_insertionSort, List.mem_filter,
      decide_eq_true_eq] at hb
    exact hb.2
  · exact List.sorted_insertionSort valueGe _

/-- Witness for C8: a two-balance scan where one balance is outside the
dust range. -/
theorem C8_dust_summary_invariants_witness :
    (∀ b ∈ (scanAllBalances
        { defaultFeeBps := 1000, minDustValueUsd := 1/100, maxDustValueUsd := 10,
          defiLlamaTreasury := none, sweepDeadlineSeconds := 3600,
          quoteExpirySeconds := 300 }
        [1]
        (fun c => if c = 1 then
          some [{ chainId := 1, address := "0xa", symbol := "A", name := "A",
                  decimals := 18, balance := 5, balanceFormatted := "5",
                  priceUsd := 1, valueUsd := 5 },
                { chainId := 1, address := "0xb", symbol := "B", name := "B",
                  decimals := 18, balance := 50, balanceFormatted := "50",
                  priceUsd := 1, valueUsd := 50 }]
          else none)
        { minValueUsd := none, maxValueUsd := none,
          includeChains := none, excludeChains := none } 0).balances,
      (1 : ℚ)/100 ≤ b.valueUsd ∧ b.valueUsd ≤ 10) ∧
    (scanAllBalances
        { defaultFeeBps := 1000, minDustValueUsd := 1/100, maxDustValueUsd := 10,
          defiLlamaTreasury := none, sweepDeadlineSeconds := 3600,
          quoteExpirySeconds := 300 }
        [1]
        (fun c => if c = 1 then
          some [{ chainId := 1, address := "0xa", symbol := "A", name := "A",
                  decimals := 18, balance := 5, balanceFormatted := "5",
                  priceUsd := 1, valueUsd := 5 },
                { chainId := 1, address := "0xb", symbol := "B", name := "B",
                  decimals := 18, balance := 50, balanceFormatted := "50",
                  priceUsd := 1, valueUsd := 50 }]
          else none)
        { minValueUsd := none, maxValueUsd := none,
          includeChains := none, excludeChains := none } 0).tokenCount = 1 := by
  constructor
  · intro b hb
    have h := (C8_dust_summary_invariants
      { defaultFeeBps := 1000, minDustValueUsd := 1/100, maxDustValueUsd := 10,
        defiLlamaTreasury := none, sweepDeadlineSeconds := 3600,
        quoteExpirySeconds := 300 }
      [1]
      (fun c => if c = 1 then
        some [{ chainId := 1, address := "0xa", symbol := "A", name := "A",
                decimals := 18, balance := 5, balanceFormatted := "5",
                priceUsd := 1, valueUsd := 5 },
              { chainId := 1, address := "0xb", symbol := "B", name := "B",
                decimals := 18, balance := 50, balanceFormatted := "50",
                priceUsd := 1, valueUsd := 50 }]
        else none)
      { minValueUsd := none, maxValueUsd := none,
        includeChains := none, excludeChains := none } 0).1 b hb
    exact h
  · with_unfolding_all rfl

/-- Claim C9: per-chain scan failures are isolated — the aggregate
summary is identical to the one in which every failing chain
contributed an empty balance list, so no chain's failure aborts the
aggregation or affects other chains' balances. -/
theorem C9_chain_failure_isolation
    (cfg : SolverConfig) (supportedChainIds : List ℕ)
    (scanChain : ℕ → Option (List TokenBalance))
    (options : ScanOptions) (now : ℕ) :
    scanAllBalances cfg supportedChainIds scanChain options now =
    scanAllBalances cfg supportedChainIds
      (fun c => some ((scanChain c).getD [])) options now := by
  have key : ∀ (l : List ℕ),
      collectFulfilled (l.map (fun c => some ((scanChain c).getD []))) =
      collectFulfilled (l.map scanChain) := by
    intro l
    induction l with
    | nil => rfl
    | cons c l ih =>
      simp only [List.map_cons, collectFulfilled, List.foldr_cons]
      cases h : scanChain c <;>
        simp_all [collectFulfilled]
  simp only [scanAllBalances, key]

/-! ## Quote data model (`solver/src/types.ts`, continued) -/

/-- `SweepTokenInput` (`types.ts`): one token of a quote's dust input. -/
structure SweepTokenInput where
  chainId : ℕ
  address : String
  symbol : String
  amount : ℤ
  amountFormatted : String
  valueUsd : ℚ
deriving DecidableEq

/-- `ChainAuthorization` (`types.ts`). -/
structure ChainAuthorization where
  chainId : ℕ
  delegateAddress : String
  tokens : List String
  amounts : List ℤ
  nonce : ℤ
deriving DecidableEq

/-- `AuthorizationData` (`types.ts`).  The human-readable
`message : string` field (a `JSON.stringify` of summary data) carries
no information beyond the other fields and is not relied on by any
claim; it is omitted from the embedding. -/
structure AuthorizationData where
  authorizations : List ChainAuthorization
  deadline : ℕ
deriving DecidableEq

/-- `SweepQuote` (`types.ts`).  `estimatedOutputAmountFormatted` (a
decimal rendering of `estimatedOutputAmount`) is omitted. -/
structure SweepQuote where
  quoteId : String
  userAddress : String
  dustTokens : List SweepTokenInput
  totalInputValueUsd : ℚ
  destinationChainId : ℕ
  destinationToken : String
  estimatedOutputAmount : ℤ
  estimatedOutputValueUsd : ℚ
  isDonation : Bool
  feePercent : ℚ
  feeAmountUsd : ℚ
  recipient : String
  expiresAt : ℕ
  estimatedDurationSeconds : ℕ
  authorizationData : AuthorizationData
deriving DecidableEq

/-! ## Quote store (`quoteEngine`, `src/unnamed/part_003`) -/

/-- An entry of the in-memory `quoteStore` map:
`{ quote, createdAt }`. -/
structure QuoteEntry where
  quote : SweepQuote
  createdAt : ℕ
deriving DecidableEq

/-- The process-wide `quoteStore : Map<string, entry>`, modelled as a
partial map from quote id to entry.  Times are `Date.now()`
milliseconds. -/
abbrev QuoteStore := String → Option QuoteEntry

/-- `getQuote(quoteId)`: returns the stored quote if present and
unexpired; an entry with `expiresAt < now` is evicted on lookup and
not-found is returned.  The second component is the store after the
lookup. -/
def getQuote (now : ℕ) (store : QuoteStore) (quoteId : String) :
    Option SweepQuote × QuoteStore :=
  match store quoteId with
  | none => (none, store)
  | some entry =>
    if entry.quote.expiresAt < now then
      (none, fun id => if id = quoteId then none else store id)
    else (some entry.quote, store)

/-- The periodic cleanup sweep (`setInterval` body): every entry with
`expiresAt < now` is deleted from the store. -/
def sweepExpired (now : ℕ) (store : QuoteStore) : QuoteStore :=
  fun id =>
    match store id with
    | some entry => if entry.quote.expiresAt < now then none else some entry
    | none => none

/-! ## groupBy-chain helper

Both `buildAuthorizationData` and `executeSweeps` group a list by
`chainId` through an insertion-ordered JS `Map` built by pushing each
element onto the list at its key.  `addToGroup` appends an element to
the first entry with its key (or appends a new entry), exactly as the
`Map.get / push / Map.set` loop does. -/

/-- One step of the grouping loop. -/
def addToGroup {α : Type} (key : α → ℕ) :
    List (ℕ × List α) → α → List (ℕ × List α)
  | [], x => [(key x, [x])]
  | (c, ts) :: rest, x =>
    if key x = c then (c, ts ++ [x]) :: rest
    else (c, ts) :: addToGroup key rest x

/-- Grouping a list by key, preserving first-appearance key order and
per-key element order (the JS `Map` grouping idiom). -/
def groupBy {α : Type} (key : α → ℕ) (xs : List α) : List (ℕ × List α) :=
  xs.foldl (addToGroup key) []

/-- First-match key lookup in an association list (proof-side helper
for reasoning about the grouping). -/
def lookupKey {α : Type} (c : ℕ) : List (ℕ × List α) → Option (List α)
  | [] => none
  | (c', ts) :: rest => if c = c' then some ts else lookupKey c rest

theorem lookup_addToGroup {α : Type} (key : α → ℕ)
    (acc : List (ℕ × List α)) (x : α) (c : ℕ) :
    lookupKey c (addToGroup key acc x) =
      if c = key x then some (((lookupKey c acc).getD []) ++ [x])
      else lookupKey c acc := by
  induction acc with
  | nil =>
    by_cases h : c = key x <;> simp [addToGroup, lookupKey, h]
  | cons p rest ih =>
    obtain ⟨c', ts⟩ := p
    by_cases hx : key x = c'
    · subst hx
      by_cases hc : c = key x <;> simp [addToGroup, lookupKey, hc]
    · by_cases hc : c = c'
      · subst hc
        have hcx : ¬c = key x := fun h => hx h.symm
        simp [addToGroup, lookupKey, hx, hcx]
      · simp [addToGroup, lookupKey, hx, hc, ih]

theorem keys_addToGroup {α : Type} (key : α → ℕ)
    (acc : List (ℕ × List α)) (x : α) :
    (addToGroup key acc x).map Prod.fst =
      if key x ∈ acc.map Prod.fst then acc.map Prod.fst
      else acc.map Prod.fst ++ [key x] := by
  induction acc with
  | nil => simp [addToGroup]
  | cons p rest ih =>
    obtain ⟨c', ts⟩ := p
    by_cases hx : key x = c'
    · subst hx
      simp [addToGroup]
    · simp only [addToGroup, if_neg hx, List.map_cons, List.mem_cons]
      rw [ih]
      split_ifs <;> simp_all

theorem mem_keys_iff_lookup {α : Type} (l : List (ℕ × List α)) (c : ℕ) :
    c ∈ l.map Prod.fst ↔ lookupKey c l ≠ none := by
  induction l with
  | nil => simp [lookupKey]
  | cons p rest ih =>
    obtain ⟨c', ts⟩ := p
    by_cases hc : c = c' <;> simp [lookupKey, hc, ih]

theorem mem_iff_lookup_of_nodup {α : Type} (l : List (ℕ × List α))
    (hnd : (l.map Prod.fst).Nodup) (c : ℕ) (ts : List α) :
    (c, ts) ∈ l ↔ lookupKey c l = some ts := by
  induction l with
  | nil => simp [lookupKey]
  | cons p rest ih =>
    obtain ⟨c', ts'⟩ := p
    simp only [List.map_cons, List.nodup_cons] at hnd
    by_cases hc : c = c'
    · subst hc
      have hnotin : (c, ts) ∉ rest := fun hmem =>
        hnd.1 (List.mem_map.mpr ⟨(c, ts), hmem, rfl⟩)
      simp only [lookupKey, if_pos rfl, List.mem_cons]
      constructor
      · rintro (h | hmem)
        · rw [Prod.mk.injEq] at h
          rw [h.2]
          simp
        · exact absurd hmem hnotin
      · intro h
        injection h with h
        left
        rw [← h]
    · simp only [lookupKey, if_neg hc, List.mem_cons]
      rw [← ih hnd.2]
      constructor
      · rintro (h | hmem)
        · rw [Prod.mk.injEq] at h
          exact absurd h.1 hc
        · exact hmem
      · intro hmem
        right
        exact hmem

theorem keys_groupBy_nodup {α : Type} (key : α → ℕ) (xs : List α) :
    ((groupBy key xs).map Prod.fst).Nodup := by
  suffices h : ∀ (acc : List (ℕ × List α)), (acc.map Prod.fst).Nodup →
      ((xs.foldl (addToGroup key) acc).map Prod.fst).Nodup by
    exact h [] (by simp)
  induction xs with
  | nil => intro acc hacc; simpa using hacc
  | cons x xs ih =>
    intro acc hacc
    simp only [List.foldl_cons]
    refine ih _ ?_
    rw [keys_addToGroup]
    split_ifs with hmem
    · exact hacc
    · rw [List.nodup_append]
      exact ⟨hacc, List.nodup_singleton _, by simpa using hmem⟩

theorem lookup_groupBy_aux {α : Type} (key : α → ℕ) (xs : List α) :
    ∀ (acc : List (ℕ × List α)) (c : ℕ),
      (∀ ts, lookupKey c acc = some ts →
        lookupKey c (xs.foldl (addToGroup key) acc) =
          some (ts ++ xs.filter (fun y => key y == c))) ∧
      (lookupKey c acc = none → xs.filter (fun y => key y == c) = [] →
        lookupKey c (xs.foldl (addToGroup key) acc) = none) ∧
      (lookupKey c acc = none → xs.filter (fun y => key y == c) ≠ [] →
        lookupKey c (xs.foldl (addToGroup key) acc) =
          some (xs.filter (fun y => key y == c))) := by
  induction xs with
  | nil =>
    intro acc c
    refine ⟨fun ts h => by simpa using h, fun h _ => by simpa using h,
      fun _ h => absurd rfl h⟩
  | cons x xs ih =>
    intro acc c
    simp only [List.foldl_cons]
    by_cases hc : c = key x
    · subst hc
      have hfil : (x :: xs).filter (fun y => key y == key x) =
          x :: xs.filter (fun y => key y == key x) := by
        simp [List.filter_cons]
      refine ⟨?_, ?_, ?_⟩
      · intro ts h
        have h' : lookupKey (key x) (addToGroup key acc x) = some (ts ++ [x]) := by
          rw [lookup_addToGroup, if_pos rfl, h]
          rfl
        rw [(ih (addToGroup key acc x) (key x)).1 (ts ++ [x]) h', hfil]
        simp
      · intro _ hnil
        rw [hfil] at hnil
        cases hnil
      · intro h _
        have h' : lookupKey (key x) (addToGroup key acc x) = some [x] := by
          rw [lookup_addToGroup, if_pos rfl, h]
          rfl
        rw [(ih (addToGroup key acc x) (key x)).1 [x] h', hfil]
        simp
    · have hfil : (x :: xs).filter (fun y => key y == c) =
          xs.filter (fun y => key y == c) := by
        have : ¬key x = c := fun h => hc h.symm
        simp [List.filter_cons, this]
      have hlk : lookupKey c (addToGroup key acc x) = lookupKey c acc := by
        rw [lookup_addToGroup, if_neg hc]
      refine ⟨?_, ?_, ?_⟩
      · intro ts h
        rw [(ih (addToGroup key acc x) c).1 ts (hlk.trans h), hfil]
      · intro h hnil
        rw [hfil] at hnil
        exact (ih (addToGroup key acc x) c).2.1 (hlk.trans h) hnil
      · intro h hne
        rw [hfil] at hne ⊢
        exact (ih (addToGroup key acc x) c).2.2 (hlk.trans h) hne

theorem lookup_groupBy_of_filter_nil {α : Type} (key : α → ℕ) (xs : List α)
    (c : ℕ) (h : xs.filter (fun y => key y == c) = []) :
    lookupKey c (groupBy key xs) = none :=
  (lookup_groupBy_aux key xs [] c).2.1 rfl h

theorem lookup_groupBy_of_filter_ne {α : Type} (key : α → ℕ) (xs : List α)
    (c : ℕ) (h : xs.filter (fun y => key y == c) ≠ []) :
    lookupKey c (groupBy key xs) = some (xs.filter (fun y => key y == c)) :=
  (lookup_groupBy_aux key xs [] c).2.2 rfl h

theorem mem_groupBy_iff {α : Type} (key : α → ℕ) (xs : List α)
    (c : ℕ) (ts : List α) :
    (c, ts) ∈ groupBy key xs ↔
      (ts = xs.filter (fun y => key y == c) ∧ ts ≠ []) := by
  rw [mem_iff_lookup_of_nodup _ (keys_groupBy_nodup key xs)]
  cases hfil : xs.filter (fun y => key y == c) with
  | nil =>
    rw [lookup_groupBy_of_filter_nil key xs c hfil]
    constructor
    · intro h; cases h
    · rintro ⟨rfl, hne⟩; exact absurd rfl hne
  | cons f fs =>
    rw [lookup_groupBy_of_filter_ne key xs c (by rw [hfil]; simp)]
    rw [hfil]
    constructor
    · intro h
      injection h with h
      exact ⟨h.symm, by rw [← h]; simp⟩
    · rintro ⟨rfl, _⟩; rfl

theorem mem_keys_groupBy {α : Type} (key : α → ℕ) (xs : List α) (c : ℕ) :
    c ∈ (groupBy key xs).map Prod.fst ↔ ∃ x ∈ xs, key x = c := by
  rw [mem_keys_iff_lookup]
  cases hfil : xs.filter (fun y => key y == c) with
  | nil =>
    rw [lookup_groupBy_of_filter_nil key xs c hfil]
    simp only [ne_eq, not_true_eq_false, false_iff]
    rw [List.filter_eq_nil] at hfil
    rintro ⟨x, hx, hkey⟩
    exact hfil x hx (by simp [hkey])
  | cons f fs =>
    rw [lookup_groupBy_of_filter_ne key xs c (by rw [hfil]; simp)]
    simp only [ne_eq, reduceCtorEq, not_false_eq_true, true_iff]
    have hf : f ∈ xs.filter (fun y => key y == c) := by rw [hfil]; simp
    rw [List.mem_filter] at hf
    exact ⟨f, hf.1, by simpa using hf.2⟩

/-! ## Quote engine (`src/unnamed/part_003`) -/

/-- The lowercase token addresses hard-coded to 6 decimals in
`getTokenDecimals` (common USDC/USDT deployments). -/
def STABLECOINS_6 : List String :=
  ["0xa0b86991c6218b36c1d19d4a2e9eb0ce3606eb48",
   "0xdac17f958d2ee523a2206206994597c13d831ec7",
   "0xaf88d065e77c8cc2239327c5edb3a432268e5831",
   "0xfd086bc7cd5c481dcc9c85ebe478a1c0b69fcbb9",
   "0x0b2c639c533813f4aa9d7837caf62653d097ff85",
   "0x94b008aa00579c1307b0ef2c499ad98a8ce58e58",
   "0x833589fcd6edb6e08f4c7c32d4f71b54bda02913",
   "0x3c499c542cef5e3811e1192ce70d8cc03d5c3359",
   "0xc2132d05d31c914a87c6611c10748aeb04b58e8f",
   "0xb97ef9ef8734c71904d8002f8b6bc66dd9c48a6e"]

/-- `getTokenDecimals(address, chainId)`: 6 for the hard-coded
stablecoin table (after lowercasing), otherwise the default 18.  The
`chainId` argument is unused in the source as well. -/
def getTokenDecimals (address : String) (chainId : ℕ) : ℕ :=
  if address.toLower ∈ STABLECOINS_6 then 6 else 18

/-- The effective destination token price:
`destPrices.get(destTokenKey) || 1`.  A missing entry defaults to 1;
a zero price is also replaced by 1 because `0` is falsy in JS. -/
def effectiveDestPrice (lookup : Option ℚ) : ℚ :=
  match lookup with
  | some p => if p = 0 then 1 else p
  | none => 1

/-- Conversion of a scanned `TokenBalance` to the quote's
`SweepTokenInput` (the `dustSummary.balances.map` in `generateQuote`). -/
def balanceToSweepInput (b : TokenBalance) : SweepTokenInput :=
  { chainId := b.chainId, address := b.address, symbol := b.symbol,
    amount := b.balance, amountFormatted := b.balanceFormatted,
    valueUsd := b.valueUsd }

/-- The authorization-loop body of `buildAuthorizationData`:
`if (!chainConfig?.delegateAddress) continue; authorizations.push({...})`
for one grouped chain. -/
def mkChainAuthorization (registry : ChainRegistry)
    (p : ℕ × List TokenBalance) : Option ChainAuthorization :=
  match (registry p.1).bind (fun cfg => cfg.delegateAddress) with
  | none => none
  | some d => some
      { chainId := p.1, delegateAddress := d,
        tokens := p.2.map (fun t => t.address),
        amounts := p.2.map (fun t => t.balance),
        nonce := 0 }

/-- `buildAuthorizationData(userAddress, balances, deadlineSeconds)`:
groups the dust balances by chain id and emits one `ChainAuthorization`
per grouped chain whose `ChainConfig` declares a `delegateAddress`,
listing that chain's token addresses and amounts in order, with the
placeholder nonce 0; `nowSec` models `Math.floor(Date.now() / 1000)`.
The user address only feeds the omitted human-readable message. -/
def buildAuthorizationData (registry : ChainRegistry)
    (balances : List TokenBalance) (deadlineSeconds : ℕ) (nowSec : ℕ) :
    AuthorizationData :=
  let byChain := groupBy (fun (b : TokenBalance) => b.chainId) balances
  let deadline := nowSec + deadlineSeconds
  let authorizations := byChain.filterMap (mkChainAuthorization registry)
  { authorizations := authorizations, deadline := deadline }

/-- `SweepQuoteRequest` (`types.ts`).  `donateToDefillama` is optional
in the source and destructured with default `false`; it is modelled as
a plain `Bool`. -/
structure SweepQuoteRequest where
  userAddress : String
  destinationChainId : ℕ
  destinationToken : String
  donateToDefillama : Bool
  minTokenValueUsd : Option ℚ
  maxTokenValueUsd : Option ℚ
  includeChains : Option (List ℕ)
  excludeChains : Option (List ℕ)
deriving DecidableEq

/-- The scan options `generateQuote` passes to `scanAllBalances`. -/
def reqScanOptions (req : SweepQuoteRequest) : ScanOptions :=
  { minValueUsd := req.minTokenValueUsd, maxValueUsd := req.maxTokenValueUsd,
    includeChains := req.includeChains, excludeChains := req.excludeChains }

/-- The two `throw new Error(...)` failures of `generateQuote`
(spec taxonomy: `UnsupportedChainError`, `NoDustFoundError`). -/
inductive QuoteError
  | unsupportedChain (chainId : ℕ)
  | noDustFound
deriving DecidableEq

/-- The ambient inputs of one `generateQuote` call: the chain registry,
the supported chain-id list, the per-chain scan oracle, the result of
the destination-token price lookup (`destPrices.get(destTokenKey)`),
the current time `Date.now()` in ms, and the freshly generated random
quote id (`randomBytes(16).toString('hex')`). -/
structure QuoteEnv where
  registry : ChainRegistry
  supportedChainIds : List ℕ
  scanChain : ℕ → Option (List TokenBalance)
  destPriceLookup : Option ℚ
  nowMs : ℕ
  freshQuoteId : String

/-- `generateQuote(request)` (`src/unnamed/part_003`): validates the
destination chain, scans dust, computes the fee/donation split, the
slippage- and gas-adjusted output estimate, the destination-token
amount, the authorization payload, and stores the quote.  The store is
threaded explicitly; the successful result carries the updated store.
The `recipient` non-null assertion `config.defiLlamaTreasury!` is
modelled by `Option.getD`, which is only reached when the treasury is
configured. -/
def generateQuote (env : QuoteEnv) (cfg : SolverConfig)
    (req : SweepQuoteRequest) (store : QuoteStore) :
    Except QuoteError (SweepQuote × QuoteStore) :=
  match env.registry req.destinationChainId with
  | none => .error (.unsupportedChain req.destinationChainId)
  | some _ =>
    let dustSummary := scanAllBalances cfg env.supportedChainIds env.scanChain
      (reqScanOptions req) env.nowMs
    if dustSummary.tokenCount = 0 then .error .noDustFound
    else
      let isDonation := req.donateToDefillama && cfg.defiLlamaTreasury.isSome
      let feePercent : ℚ := if isDonation then 0 else (cfg.defaultFeeBps : ℚ) / 100
      let feeAmountUsd := dustSummary.totalValueUsd * feePercent / 100
      let netValueUsd := dustSummary.totalValueUsd - feeAmountUsd
      let recipient := if isDonation then cfg.defiLlamaTreasury.getD req.userAddress
        else req.userAddress
      let destTokenPrice := effectiveDestPrice env.destPriceLookup
      let slippageFactor : ℚ := 0.98
      let estimatedGasCostUsd : ℚ := (dustSummary.chainCount : ℚ) * 0.5
      let netAfterGas := max 0 (netValueUsd - estimatedGasCostUsd)
      let estimatedOutputValueUsd := netAfterGas * slippageFactor
      let destTokenDecimals := getTokenDecimals req.destinationToken
        req.destinationChainId
      let estimatedOutputAmount : ℤ :=
        ⌊estimatedOutputValueUsd / destTokenPrice * (10 : ℚ) ^ destTokenDecimals⌋
      let authorizationData := buildAuthorizationData env.registry
        dustSummary.balances cfg.sweepDeadlineSeconds (env.nowMs / 1000)
      let quote : SweepQuote :=
        { quoteId := env.freshQuoteId
          userAddress := req.userAddress
          dustTokens := dustSummary.balances.map balanceToSweepInput
          totalInputValueUsd := dustSummary.totalValueUsd
          destinationChainId := req.destinationChainId
          destinationToken := req.destinationToken
          estimatedOutputAmount := estimatedOutputAmount
          estimatedOutputValueUsd := estimatedOutputValueUsd
          isDonation := isDonation
          feePercent := feePercent
          feeAmountUsd := feeAmountUsd
          recipient := recipient
          expiresAt := env.nowMs + cfg.quoteExpirySeconds * 1000
          estimatedDurationSeconds := 60 + dustSummary.chainCount * 30
          authorizationData := authorizationData }
      .ok (quote,
        fun id => if id = env.freshQuoteId then
          some { quote := quote, createdAt := env.nowMs }
        else store id)

/-- The quote store after a `generateQuote` call: updated on success,
untouched when the call throws. -/
def quoteStoreAfter (env : QuoteEnv) (cfg : SolverConfig)
    (req : SweepQuoteRequest) (store : QuoteStore) : QuoteStore :=
  match generateQuote env cfg req store with
  | .ok (_, st) => st
  | .error _ => store

/-! ## Concrete quote-engine inputs used by witnesses -/

/-- A concrete scanned balance on chain 1 worth 5 USD. -/
def bal0 : TokenBalance :=
  { chainId := 1, address := "0xaaa", symbol := "AAA", name := "Token A",
    decimals := 18, balance := 1000000, balanceFormatted := "0.000000000001",
    priceUsd := 1, valueUsd := 5 }

/-- A registry with a single chain 1 that has a delegate and a vault. -/
def registry0 : ChainRegistry := fun c =>
  if c = 1 then some { delegateAddress := some "0xdel", vaultAddress := some "0xvlt" }
  else none

/-- Concrete quote-engine environment: one chain, one balance, price
lookup missing, time 0. -/
def env0 : QuoteEnv :=
  { registry := registry0, supportedChainIds := [1],
    scanChain := fun c => if c = 1 then some [bal0] else none,
    destPriceLookup := none, nowMs := 0, freshQuoteId := "qid0" }

/-- The operator config used by witnesses (defaults of
`config/index.ts`). -/
def cfg0 : SolverConfig :=
  { defaultFeeBps := 1000, minDustValueUsd := 0.01, maxDustValueUsd := 10,
    defiLlamaTreasury := none, sweepDeadlineSeconds := 3600,
    quoteExpirySeconds := 300 }

/-- A concrete non-donation request for chain 1. -/
def req0 : SweepQuoteRequest :=
  { userAddress := "0xuser", destinationChainId := 1,
    destinationToken := "0xdest", donateToDefillama := false,
    minTokenValueUsd := none, maxTokenValueUsd := none,
    includeChains := none, excludeChains := none }

/-- The empty quote store. -/
def emptyStore : QuoteStore := fun _ => none

/-- A standalone stored quote expiring at time 1000 ms. -/
def quoteX : SweepQuote :=
  { quoteId := "q1", userAddress := "0xu", dustTokens := [],
    totalInputValueUsd := 0, destinationChainId := 1,
    destinationToken := "0xt", estimatedOutputAmount := 0,
    estimatedOutputValueUsd := 0, isDonation := false, feePercent := 0,
    feeAmountUsd := 0, recipient := "0xu", expiresAt := 1000,
    estimatedDurationSeconds := 60,
    authorizationData := { authorizations := [], deadline := 0 } }

/-- A store holding exactly `quoteX` under id `"q1"`. -/
def storeX : QuoteStore :=
  fun id => if id = "q1" then some { quote := quoteX, createdAt := 0 } else none

/-- The quote produced by `generateQuote env0 cfg0 req0 emptyStore`
(that call succeeds; see `genResult0_ok`). -/
def q0 : SweepQuote :=
  match generateQuote env0 cfg0 req0 emptyStore with
  | .ok (q, _) => q
  | .error _ => quoteX

/-- The store produced by the same call. -/
def st0 : QuoteStore :=
  match generateQuote env0 cfg0 req0 emptyStore with
  | .ok (_, st) => st
  | .error _ => emptyStore

/-- The concrete `generateQuote` call of the witnesses succeeds with
`(q0, st0)`. -/
theorem genResult0_ok :
    generateQuote env0 cfg0 req0 emptyStore = .ok (q0, st0) := by
  with_unfolding_all rfl

/-- Claim C7: `generateQuote` fails with the unsupported-chain error
exactly when the destination chain id is not in the registry, and with
the no-dust error exactly when the chain is registered but the dust
scan finds zero tokens; in both failure cases the quote store is left
unchanged. -/
theorem C7_quote_failure_conditions
    (env : QuoteEnv) (cfg : SolverConfig) (req : SweepQuoteRequest)
    (store : QuoteStore) :
    (generateQuote env cfg req store =
        .error (.unsupportedChain req.destinationChainId) ↔
      env.registry req.destinationChainId = none) ∧
    (generateQuote env cfg req store = .error .noDustFound ↔
      (env.registry req.destinationChainId).isSome ∧
      (scanAllBalances cfg env.supportedChainIds env.scanChain
        (reqScanOptions req) env.nowMs).tokenCount = 0) ∧
    (∀ e, generateQuote env cfg req store = .error e →
      quoteStoreAfter env cfg req store = store) := by
  refine ⟨?_, ?_, ?_⟩
  · cases hreg : env.registry req.destinationChainId with
    | none => simp [generateQuote, hreg]
    | some c =>
      simp only [generateQuote, hreg]
      by_cases htc : (scanAllBalances cfg env.supportedChainIds env.scanChain
          (reqScanOptions req) env.nowMs).tokenCount = 0 <;>
        simp [htc, hreg]
  · cases hreg : env.registry req.destinationChainId with
    | none => simp [generateQuote, hreg]
    | some c =>
      simp only [generateQuote, hreg]
      by_cases htc : (scanAllBalances cfg env.supportedChainIds env.scanChain
          (reqScanOptions req) env.nowMs).tokenCount = 0 <;>
        simp [htc, hreg]
  · intro e he
    simp [quoteStoreAfter, he]

/-- Witness for C7: an unregistered destination chain (99999) fails and
leaves the store untouched. -/
theorem C7_quote_failure_conditions_witness :
    quoteStoreAfter
      { registry := fun _ => none, supportedChainIds := [],
        scanChain := fun _ => none, destPriceLookup := none,
        nowMs := 0, freshQuoteId := "q" } cfg0
      { userAddress := "0xu", destinationChainId := 99999,
        destinationToken := "0xt", donateToDefillama := false,
        minTokenValueUsd := none, maxTokenValueUsd := none,
        includeChains := none, excludeChains := none } emptyStore = emptyStore :=
  (C7_quote_failure_conditions _ cfg0 _ emptyStore).2.2
    (.unsupportedChain 99999) rfl

/-- Claim C2 counterexample: `quoteX` expires at 1000 and the current
time is 1000 (so current time ≥ `expiresAt`), yet `getQuote` still
returns the quote instead of not-found, because the code's expiry test
is the strict `expiresAt < now`. -/
theorem C2_counterexample :
    quoteX.expiresAt ≤ 1000 ∧ (getQuote 1000 storeX "q1").fst = some quoteX := by
  exact ⟨by decide, rfl⟩

/-- Claim C2 (amended): `expiresAt` equals the creation time plus the
configured expiry (in the store's millisecond clock); `getQuote`
returns the stored quote while `now ≤ expiresAt` and returns not-found
once `now > expiresAt` (strictly after expiry), evicting the entry on
that lookup; and the periodic sweep removes exactly the entries
satisfying the same strict expiry test `expiresAt < now` as the lazy
lookup path. -/
theorem C2_quote_expiry :
    (∀ env cfg req store q st,
      generateQuote env cfg req store = .ok (q, st) →
      q.expiresAt = env.nowMs + cfg.quoteExpirySeconds * 1000) ∧
    (∀ (now : ℕ) (store : QuoteStore) (id : String) (entry : QuoteEntry),
      store id = some entry → now ≤ entry.quote.expiresAt →
      getQuote now store id = (some entry.quote, store)) ∧
    (∀ (now : ℕ) (store : QuoteStore) (id : String) (entry : QuoteEntry),
      store id = some entry → entry.quote.expiresAt < now →
      getQuote now store id = (none, fun i => if i = id then none else store i)) ∧
    (∀ (now : ℕ) (store : QuoteStore) (id : String),
      store id = none → getQuote now store id = (none, store)) ∧
    (∀ (now : ℕ) (store : QuoteStore) (id : String),
      (sweepExpired now store) id = none ↔ (getQuote now store id).fst = none) ∧
    (∀ (now : ℕ) (store : QuoteStore) (id : String) (entry : QuoteEntry),
      store id = some entry →
      ((sweepExpired now store) id = none ↔ entry.quote.expiresAt < now)) := by
  refine ⟨?_, ?_, ?_, ?_, ?_, ?_⟩
  · intro env cfg req store q st h
    simp only [generateQuote] at h
    split at h
    · exact absurd h (by simp)
    · split at h
      · exact absurd h (by simp)
      · rw [Except.ok.injEq, Prod.mk.injEq] at h
        rw [← h.1]
  · intro now store id entry hs hle
    simp [getQuote, hs, Nat.not_lt.mpr hle]
  · intro now store id entry hs hlt
    simp [getQuote, hs, hlt]
  · intro now store id hs
    simp [getQuote, hs]
  · intro now store id
    cases hs : store id with
    | none => simp [sweepExpired, getQuote, hs]
    | some entry =>
      by_cases hlt : entry.quote.expiresAt < now <;>
        simp [sweepExpired, getQuote, hs, hlt]
  · intro now store id entry hs
    by_cases hlt : entry.quote.expiresAt < now <;>
      simp [sweepExpired, hs, hlt]

/-- Witness for C2 (amended): the expiry equation on the concrete
generated quote, and lookups/sweeps against `storeX` before (500 ms)
and after (2000 ms) its 1000 ms expiry. -/
theorem C2_quote_expiry_witness :
    q0.expiresAt = env0.nowMs + cfg0.quoteExpirySeconds * 1000 ∧
    getQuote 500 storeX "q1" = (some quoteX, storeX) ∧
    getQuote 2000 storeX "q1" =
      (none, fun i => if i = "q1" then none else storeX i) ∧
    ((sweepExpired 2000 storeX) "q1" = none ↔ quoteX.expiresAt < 2000) :=
  ⟨C2_quote_expiry.1 env0 cfg0 req0 emptyStore q0 st0 genResult0_ok,
   C2_quote_expiry.2.1 500 storeX "q1" { quote := quoteX, createdAt := 0 }
     rfl (by decide),
   C2_quote_expiry.2.2.1 2000 storeX "q1" { quote := quoteX, createdAt := 0 }
     rfl (by decide),
   C2_quote_expiry.2.2.2.2.2 2000 storeX "q1" { quote := quoteX, createdAt := 0 }
     rfl⟩

theorem mk_chainId {registry : ChainRegistry} {p : ℕ × List TokenBalance}
    {a : ChainAuthorization}
    (h : mkChainAuthorization registry p = some a) : a.chainId = p.1 := by
  unfold mkChainAuthorization at h
  split at h
  · cases h
  · injection h with h
    rw [← h]

theorem mk_fields {registry : ChainRegistry} {p : ℕ × List TokenBalance}
    {a : ChainAuthorization}
    (h : mkChainAuthorization registry p = some a) :
    a.tokens = p.2.map (fun t => t.address) ∧
    a.amounts = p.2.map (fun t => t.balance) ∧
    (registry p.1).bind (fun c => c.delegateAddress) = some a.delegateAddress := by
  unfold mkChainAuthorization at h
  split at h
  · cases h
  · injection h with h
    rw [← h]
    refine ⟨rfl, rfl, ?_⟩
    assumption

theorem mk_eq_none_iff {registry : ChainRegistry} {p : ℕ × List TokenBalance} :
    mkChainAuthorization registry p = none ↔
    (registry p.1).bind (fun c => c.delegateAddress) = none := by
  unfold mkChainAuthorization
  cases h : (registry p.1).bind (fun c => c.delegateAddress) <;> simp [h]

theorem nodup_auth_chainIds (registry : ChainRegistry)
    (l : List (ℕ × List TokenBalance))
    (hnd : (l.map Prod.fst).Nodup) :
    ((l.filterMap (mkChainAuthorization registry)).map
      (fun a => a.chainId)).Nodup := by
  induction l with
  | nil => simp
  | cons p rest ih =>
    simp only [List.map_cons, List.nodup_cons] at hnd
    rw [List.filterMap_cons]
    cases hm : mkChainAuthorization registry p with
    | none => exact ih hnd.2
    | some a =>
      simp only [List.map_cons, List.nodup_cons]
      refine ⟨?_, ih hnd.2⟩
      intro hmem
      rw [List.mem_map] at hmem
      obtain ⟨a', ha'mem, ha'⟩ := hmem
      rw [List.mem_filterMap] at ha'mem
      obtain ⟨p', hp'mem, hp'⟩ := ha'mem
      exact hnd.1 (List.mem_map.mpr
        ⟨p', hp'mem, by rw [← mk_chainId hp', ha', mk_chainId hm]⟩)

/-- Claim C4: `buildAuthorizationData` emits exactly one
`ChainAuthorization` per distinct chain id that both appears in the
dust balances and whose `ChainConfig` declares a `delegateAddress`;
each authorization lists every token address and amount of its chain
(in order) and the single shared deadline is the build time plus
`deadlineSeconds`; a chain with dust but no configured delegate
produces no authorization, while `generateQuote` still counts every
scanned balance — delegate or not — in `totalInputValueUsd`. -/
theorem C4_authorization_per_delegate_chain :
    (∀ (registry : ChainRegistry) (balances : List TokenBalance)
        (deadlineSeconds nowSec : ℕ) (ad : AuthorizationData),
      ad = buildAuthorizationData registry balances deadlineSeconds nowSec →
      (ad.authorizations.map (fun a => a.chainId)).Nodup ∧
      (∀ cid, (∃ a ∈ ad.authorizations, a.chainId = cid) ↔
        ((∃ b ∈ balances, b.chainId = cid) ∧
          (registry cid).bind (fun c => c.delegateAddress) ≠ none)) ∧
      (∀ a ∈ ad.authorizations,
        a.tokens = (balances.filter
          (fun b => b.chainId == a.chainId)).map (fun b => b.address) ∧
        a.amounts = (balances.filter
          (fun b => b.chainId == a.chainId)).map (fun b => b.balance) ∧
        (registry a.chainId).bind (fun c => c.delegateAddress) =
          some a.delegateAddress) ∧
      ad.deadline = nowSec + deadlineSeconds) ∧
    (∀ env cfg req store q st, generateQuote env cfg req store = .ok (q, st) →
      q.totalInputValueUsd =
        ((scanAllBalances cfg env.supportedChainIds env.scanChain
          (reqScanOptions req) env.nowMs).balances.map
            (fun b => b.valueUsd)).sum ∧
      q.authorizationData = buildAuthorizationData env.registry
        (scanAllBalances cfg env.supportedChainIds env.scanChain
          (reqScanOptions req) env.nowMs).balances
        cfg.sweepDeadlineSeconds (env.nowMs / 1000)) := by
  constructor
  · intro registry balances deadlineSeconds nowSec ad had
    subst had
    simp only [buildAuthorizationData]
    refine ⟨?_, ?_, ?_, trivial⟩
    · exact nodup_auth_chainIds registry _
        (keys_groupBy_nodup (fun b => b.chainId) balances)
    · intro cid
      constructor
      · rintro ⟨a, hamem, hacid⟩
        rw [List.mem_filterMap] at hamem
        obtain ⟨p, hpmem, hp⟩ := hamem
        have hcid : p.1 = cid := by rw [← mk_chainId hp, hacid]
        constructor
        · rw [← mem_keys_groupBy (fun b => b.chainId) balances cid]
          exact List.mem_map.mpr ⟨p, hpmem, hcid⟩
        · rw [← hcid]
          rw [(mk_fields hp).2.2]
          exact fun h => by cases h
      · rintro ⟨hdust, hdel⟩
        rw [← mem_keys_groupBy (fun b => b.chainId) balances cid] at hdust
        rw [List.mem_map] at hdust
        obtain ⟨p, hpmem, hpcid⟩ := hdust
        cases hm : mkChainAuthorization registry p with
        | none =>
          rw [mk_eq_none_iff, hpcid] at hm
          exact absurd hm hdel
        | some a =>
          exact ⟨a, List.mem_filterMap.mpr ⟨p, hpmem, hm⟩,
            by rw [mk_chainId hm, hpcid]⟩
    · intro a hamem
      rw [List.mem_filterMap] at hamem
      obtain ⟨p, hpmem, hp⟩ := hamem
      obtain ⟨c, ts⟩ := p
      rw [mem_groupBy_iff] at hpmem
      have hc : a.chainId = c := mk_chainId hp
      obtain ⟨hts, -⟩ := hpmem
      have hf := mk_fields hp
      rw [hc]
      refine ⟨?_, ?_, hf.2.2⟩
      · rw [hf.1]
        rw [hts]
      · rw [hf.2.1]
        rw [hts]
  · intro env cfg req store q st h
    simp only [generateQuote] at h
    split at h
    · exact absurd h (by simp)
    · split at h
      · exact absurd h (by simp)
      · rw [Except.ok.injEq, Prod.mk.injEq] at h
        rw [← h.1]
        exact ⟨rfl, rfl⟩

/-- Witness for C4: the authorization data built over `[bal0]` with the
one-chain registry, and the quote it feeds. -/
theorem C4_authorization_per_delegate_chain_witness :
    (buildAuthorizationData registry0 [bal0] 3600 0).deadline = 0 + 3600 ∧
    q0.totalInputValueUsd =
      ((scanAllBalances cfg0 env0.supportedChainIds env0.scanChain
        (reqScanOptions req0) env0.nowMs).balances.map
          (fun b => b.valueUsd)).sum ∧
    ((buildAuthorizationData registry0 [bal0] 3600 0).authorizations.map
      (fun a => a.chainId)).Nodup :=
  ⟨(C4_authorization_per_delegate_chain.1 registry0 [bal0] 3600 0 _ rfl).2.2.2,
   (C4_authorization_per_delegate_chain.2 env0 cfg0 req0 emptyStore q0 st0
     genResult0_ok).1,
   (C4_authorization_per_delegate_chain.1 registry0 [bal0] 3600 0 _ rfl).1⟩

theorem effectiveDestPrice_pos (lookup : Option ℚ)
    (h : ∀ p, lookup = some p → 0 ≤ p) : 0 < effectiveDestPrice lookup := by
  cases lookup with
  | none => norm_num [effectiveDestPrice]
  | some p =>
    have hp := h p rfl
    by_cases h0 : p = 0
    · simp [effectiveDestPrice, h0]
    · simp only [effectiveDestPrice, if_neg h0]
      exact lt_of_le_of_ne hp (Ne.symm h0)

/-- Claim C6: for every successful `generateQuote` call, `feePercent`
is 0 when the request is donation-eligible and `defaultFeeBps / 100`
otherwise; `feeAmountUsd = totalValueUsd * feePercent / 100`;
`estimatedOutputValueUsd =
max(0, (totalValueUsd - feeAmountUsd) - chainCount * 0.5) * 0.98` with
the slippage factor 0.98 < 1; and the output amount in
destination-token units is the floor of dividing by the destination
token's effective USD price (1 when the lookup misses) and scaling by
`10 ^ decimals` with decimals from the static table (18 when unknown) —
a floor of a nonnegative value, i.e. truncation toward zero, whenever
the fetched price is nonnegative. -/
theorem C6_quote_economics
    (env : QuoteEnv) (cfg : SolverConfig) (req : SweepQuoteRequest)
    (store : QuoteStore) (q : SweepQuote) (st : QuoteStore)
    (h : generateQuote env cfg req store = .ok (q, st)) :
    (req.donateToDefillama = true ∧ cfg.defiLlamaTreasury.isSome = true →
      q.feePercent = 0) ∧
    (¬(req.donateToDefillama = true ∧ cfg.defiLlamaTreasury.isSome = true) →
      q.feePercent = (cfg.defaultFeeBps : ℚ) / 100) ∧
    q.feeAmountUsd =
      (scanAllBalances cfg env.supportedChainIds env.scanChain
        (reqScanOptions req) env.nowMs).totalValueUsd * q.feePercent / 100 ∧
    q.estimatedOutputValueUsd =
      max 0 (((scanAllBalances cfg env.supportedChainIds env.scanChain
          (reqScanOptions req) env.nowMs).totalValueUsd - q.feeAmountUsd) -
        ((scanAllBalances cfg env.supportedChainIds env.scanChain
          (reqScanOptions req) env.nowMs).chainCount : ℚ) * 0.5) * 0.98 ∧
    (0.98 : ℚ) < 1 ∧
    q.estimatedOutputAmount =
      ⌊q.estimatedOutputValueUsd / effectiveDestPrice env.destPriceLookup *
        (10 : ℚ) ^ getTokenDecimals req.destinationToken req.destinationChainId⌋ ∧
    (env.destPriceLookup = none → effectiveDestPrice env.destPriceLookup = 1) ∧
    ((∀ p, env.destPriceLookup = some p → 0 ≤ p) →
      0 ≤ q.estimatedOutputValueUsd / effectiveDestPrice env.destPriceLookup *
        (10 : ℚ) ^ getTokenDecimals req.destinationToken req.destinationChainId) ∧
    (∀ (a : String) (c : ℕ), a.toLower ∉ STABLECOINS_6 →
      getTokenDecimals a c = 18) := by
  simp only [generateQuote] at h
  split at h
  · exact absurd h (by simp)
  · split at h
    · exact absurd h (by simp)
    · rw [Except.ok.injEq, Prod.mk.injEq] at h
      obtain ⟨hq, hst⟩ := h
      subst hq
      refine ⟨?_, ?_, rfl, ?_, by norm_num, rfl, ?_, ?_, ?_⟩
      · rintro ⟨h1, h2⟩
        simp [h1, h2]
      · intro hn
        have hb : (req.donateToDefillama && cfg.defiLlamaTreasury.isSome) = false := by
          cases hd : req.donateToDefillama <;>
            cases hs : cfg.defiLlamaTreasury.isSome <;>
            simp_all
        simp [hb]
      · rfl
      · intro he
        rw [he]
        rfl
      · intro hp
        refine mul_nonneg (div_nonneg ?_ (effectiveDestPrice_pos _ hp).le)
          (pow_nonneg (by norm_num) _)
        exact mul_nonneg (le_max_left 0 _) (by norm_num)
      · intro a c hna
        simp [getTokenDecimals, hna]

/-- Witness for C6: the concrete non-donation quote `q0` (5 USD of dust
on one chain, 10% fee, no price entry for the destination token). -/
theorem C6_quote_economics_witness :
    q0.feePercent = (cfg0.defaultFeeBps : ℚ) / 100 ∧
    q0.feeAmountUsd =
      (scanAllBalances cfg0 env0.supportedChainIds env0.scanChain
        (reqScanOptions req0) env0.nowMs).totalValueUsd * q0.feePercent / 100 ∧
    q0.estimatedOutputAmount =
      ⌊q0.estimatedOutputValueUsd / effectiveDestPrice env0.destPriceLookup *
        (10 : ℚ) ^ getTokenDecimals req0.destinationToken
          req0.destinationChainId⌋ ∧
    effectiveDestPrice env0.destPriceLookup = 1 ∧
    (0.98 : ℚ) < 1 :=
  have h := C6_quote_economics env0 cfg0 req0 emptyStore q0 st0 genResult0_ok
  ⟨h.2.1 (by decide), h.2.2.1, h.2.2.2.2.2.1, h.2.2.2.2.2.2.1 rfl,
   h.2.2.2.2.1⟩

/-! ## Sweep executor (`executeSweeps`, `solver/src/config/chains.ts`) -/

/-- `SweepStatus` (`types.ts`). -/
inductive SweepStatus
  | pending
  | sweeping
  | swapping
  | bridging
  | settling
  | completed
  | failed
  | expired
deriving DecidableEq

/-- The per-chain `SweepResult` record of `executeSweeps`. -/
structure SweepResult where
  chainId : ℕ
  txHash : String
  success : Bool
  error : Option String
deriving DecidableEq

/-- The per-chain body of the `executeSweeps` loop: a chain whose
config lacks a delegate address is recorded as a failed result with the
placeholder hash `"0x"` and an explanatory error; otherwise
`executeSweepOnChain` runs, abstracted by the oracle
`execOnChain : ℕ → Except String String`, whose `.ok` carries the
transaction hash of a successful sweep and whose `.error` carries the
message of a thrown error (caught and recorded as a failed result). -/
def sweepChainResult (registry : ChainRegistry)
    (execOnChain : ℕ → Except String String)
    (p : ℕ × List SweepTokenInput) : SweepResult :=
  match (registry p.1).bind (fun cfg => cfg.delegateAddress) with
  | none =>
    { chainId := p.1, txHash := "0x", success := false,
      error := some ("No delegate address configured for chain " ++ toString p.1) }
  | some _ =>
    match execOnChain p.1 with
    | .ok h => { chainId := p.1, txHash := h, success := true, error := none }
    | .error e =>
      { chainId := p.1, txHash := "0x", success := false, error := some e }

/-- `executeSweeps(quote, signatures)`: groups the quote's dust tokens
by chain, runs one sweep per chain, and aggregates: all per-chain
successes ⇒ `swapping`; some but not all ⇒ `sweeping`; none ⇒
`failed`.  The initial solver-private-key guard (an unrelated throw)
is outside the modelled path. -/
def executeSweeps (registry : ChainRegistry)
    (execOnChain : ℕ → Except String String)
    (quote : SweepQuote) : List SweepResult × SweepStatus :=
  let tokensByChain := groupBy (fun (t : SweepTokenInput) => t.chainId)
    quote.dustTokens
  let results := tokensByChain.map (sweepChainResult registry execOnChain)
  let allSuccess := results.all (fun r => r.success)
  let anySuccess := results.any (fun r => r.success)
  let status := if allSuccess then SweepStatus.swapping
    else if anySuccess then SweepStatus.sweeping
    else SweepStatus.failed
  (results, status)

theorem sweepChainResult_chainId (registry : ChainRegistry)
    (execOnChain : ℕ → Except String String)
    (p : ℕ × List SweepTokenInput) :
    (sweepChainResult registry execOnChain p).chainId = p.1 := by
  unfold sweepChainResult
  split
  · rfl
  · split <;> rfl

theorem executeSweeps_results_ne_nil (registry : ChainRegistry)
    (execOnChain : ℕ → Except String String) (quote : SweepQuote)
    (hne : quote.dustTokens ≠ []) :
    (executeSweeps registry execOnChain quote).1 ≠ [] := by
  obtain ⟨t, ht⟩ := List.exists_mem_of_ne_nil _ hne
  have hk : t.chainId ∈ ((groupBy (fun (x : SweepTokenInput) => x.chainId)
      quote.dustTokens).map Prod.fst) :=
    (mem_keys_groupBy _ _ _).mpr ⟨t, ht, rfl⟩
  rw [List.mem_map] at hk
  obtain ⟨p, hp, -⟩ := hk
  simp only [executeSweeps]
  intro hnil
  rw [List.map_eq_nil] at hnil
  rw [hnil] at hp
  cases hp

/-- Claim C3: over the set of chains present in a quote's dust inputs
(nonempty for every generated quote), `executeSweeps` returns `failed`
when every per-chain sweep fails, `swapping` when every per-chain sweep
succeeds, and `sweeping` when a strict non-empty subset of the chains
succeeds; the per-chain results correspond exactly to the distinct
chains of the dust inputs. -/
theorem C3_sweep_status_aggregation (registry : ChainRegistry)
    (execOnChain : ℕ → Except String String) (quote : SweepQuote)
    (hne : quote.dustTokens ≠ []) :
    ((∀ r ∈ (executeSweeps registry execOnChain quote).1, r.success = false) →
      (executeSweeps registry execOnChain quote).2 = SweepStatus.failed) ∧
    ((∀ r ∈ (executeSweeps registry execOnChain quote).1, r.success = true) →
      (executeSweeps registry execOnChain quote).2 = SweepStatus.swapping) ∧
    (((∃ r ∈ (executeSweeps registry execOnChain quote).1, r.success = true) ∧
      (∃ r ∈ (executeSweeps registry execOnChain quote).1, r.success = false)) →
      (executeSweeps registry execOnChain quote).2 = SweepStatus.sweeping) ∧
    (∀ c, (∃ r ∈ (executeSweeps registry execOnChain quote).1, r.chainId = c) ↔
      ∃ t ∈ quote.dustTokens, t.chainId = c) := by
  have hnil := executeSweeps_results_ne_nil registry execOnChain quote hne
  refine ⟨?_, ?_, ?_, ?_⟩
  · intro hall
    obtain ⟨r0, hr0⟩ := List.exists_mem_of_ne_nil _ hnil
    have hAll : ((executeSweeps registry execOnChain quote).1.all
        (fun r => r.success)) = false := by
      rw [List.all_eq_false]
      exact ⟨r0, hr0, by simp [hall r0 hr0]⟩
    have hAny : ((executeSweeps registry execOnChain quote).1.any
        (fun r => r.success)) = false := by
      rw [List.any_eq_false]
      intro r hr
      simp [hall r hr]
    simp only [executeSweeps] at hAll hAny ⊢
    rw [hAll, hAny]
    rfl
  · intro hall
    have hAll : ((executeSweeps registry execOnChain quote).1.all
        (fun r => r.success)) = true :=
      List.all_eq_true.mpr (fun r hr => hall r hr)
    simp only [executeSweeps] at hAll ⊢
    rw [hAll]
    rfl
  · rintro ⟨⟨r1, hr1, hs1⟩, ⟨r2, hr2, hs2⟩⟩
    have hAll : ((executeSweeps registry execOnChain quote).1.all
        (fun r => r.success)) = false := by
      rw [List.all_eq_false]
      exact ⟨r2, hr2, by simp [hs2]⟩
    have hAny : ((executeSweeps registry execOnChain quote).1.any
        (fun r => r.success)) = true :=
      List.any_eq_true.mpr ⟨r1, hr1, by simp [hs1]⟩
    simp only [executeSweeps] at hAll hAny ⊢
    rw [hAll, hAny]
    rfl
  · intro c
    simp only [executeSweeps]
    constructor
    · rintro ⟨r, hrmem, hrc⟩
      rw [List.mem_map] at hrmem
      obtain ⟨p, hp, hpr⟩ := hrmem
      have : p.1 = c := by
        rw [← hrc, ← hpr, sweepChainResult_chainId]
      refine (mem_keys_groupBy (fun (t : SweepTokenInput) => t.chainId)
        quote.dustTokens c).mp ?_
      exact List.mem_map.mpr ⟨p, hp, this⟩
    · intro hdust
      have hk := (mem_keys_groupBy (fun (t : SweepTokenInput) => t.chainId)
        quote.dustTokens c).mpr hdust
      rw [List.mem_map] at hk
      obtain ⟨p, hp, hpc⟩ := hk
      exact ⟨sweepChainResult registry execOnChain p,
        List.mem_map.mpr ⟨p, hp, rfl⟩,
        by rw [sweepChainResult_chainId, hpc]⟩

/-- A quote whose dust spans chain 1 (delegate configured in
`registry0`) and chain 2 (no config, hence no delegate). -/
def quoteY : SweepQuote :=
  { quoteX with dustTokens :=
      [{ chainId := 1, address := "0xaaa", symbol := "AAA", amount := 1000000,
         amountFormatted := "0.000000000001", valueUsd := 5 },
       { chainId := 2, address := "0xbbb", symbol := "BBB", amount := 7,
         amountFormatted := "0.000000000000000007", valueUsd := 3 }] }

/-- Witness for C3: on `quoteY` with an always-succeeding transaction
oracle, chain 1 succeeds and chain 2 fails (no delegate), so the
aggregate status stays `sweeping`. -/
theorem C3_sweep_status_aggregation_witness :
    (executeSweeps registry0 (fun _ => .ok "0xh") quoteY).2 =
      SweepStatus.sweeping ∧
    (∃ r ∈ (executeSweeps registry0 (fun _ => .ok "0xh") quoteY).1,
      r.chainId = 2) :=
  ⟨(C3_sweep_status_aggregation registry0 (fun _ => .ok "0xh") quoteY
      (by decide)).2.2.1 (by decide),
   (C3_sweep_status_aggregation registry0 (fun _ => .ok "0xh") quoteY
      (by decide)).2.2.2 2 |>.mpr (by decide)⟩

/-- Claim C10: a chain that appears in the quote's dust inputs but has
no configured `delegateAddress` is recorded as a failed per-chain
result (success `false`, placeholder hash `"0x"`, explanatory error)
rather than skipped; hence the all-success condition cannot hold and
the returned status is never `swapping`. -/
theorem C10_missing_delegate_recorded_failure (registry : ChainRegistry)
    (execOnChain : ℕ → Except String String) (quote : SweepQuote) (c : ℕ)
    (hdust : ∃ t ∈ quote.dustTokens, t.chainId = c)
    (hdel : (registry c).bind (fun cfg => cfg.delegateAddress) = none) :
    (∃ r ∈ (executeSweeps registry execOnChain quote).1,
      r.chainId = c ∧ r.success = false ∧ r.txHash = "0x" ∧
      r.error = some ("No delegate address configured for chain " ++
        toString c)) ∧
    (executeSweeps registry execOnChain quote).2 ≠ SweepStatus.swapping := by
  have hk := (mem_keys_groupBy (fun (t : SweepTokenInput) => t.chainId)
    quote.dustTokens c).mpr hdust
  rw [List.mem_map] at hk
  obtain ⟨p, hp, hpc⟩ := hk
  have hres : sweepChainResult registry execOnChain p =
      { chainId := c, txHash := "0x", success := false,
        error := some ("No delegate address configured for chain " ++
          toString c) } := by
    unfold sweepChainResult
    rw [hpc, hdel]
  have hmem : sweepChainResult registry execOnChain p ∈
      (executeSweeps registry execOnChain quote).1 := by
    simp only [executeSweeps]
    exact List.mem_map.mpr ⟨p, hp, rfl⟩
  constructor
  · exact ⟨sweepChainResult registry execOnChain p, hmem, by rw [hres]; simp⟩
  · have hAll : ((executeSweeps registry execOnChain quote).1.all
        (fun r => r.success)) = false := by
      rw [List.all_eq_false]
      exact ⟨sweepChainResult registry execOnChain p, hmem, by rw [hres]; simp⟩
    simp only [executeSweeps] at hAll ⊢
    rw [hAll]
    split_ifs <;> simp_all

/-- Witness for C10: chain 2 of `quoteY` has dust and no delegate. -/
theorem C10_missing_delegate_recorded_failure_witness :
    (∃ r ∈ (executeSweeps registry0 (fun _ => .ok "0xh") quoteY).1,
      r.chainId = 2 ∧ r.success = false ∧ r.txHash = "0x" ∧
      r.error = some ("No delegate address configured for chain " ++
        toString 2)) ∧
    (executeSweeps registry0 (fun _ => .ok "0xh") quoteY).2 ≠
      SweepStatus.swapping :=
  C10_missing_delegate_recorded_failure registry0 (fun _ => .ok "0xh")
    quoteY 2 (by decide) rfl

end LlamaSweep
